import Mathlib

/-
Verification of the geomstats core subset: flat Riemannian metric
(geometry/flat_riemannian_metric.py), permutation group actions
(geometry/group_action.py), the AAC alignment estimators
(learning/aac.py) and the Weiszfeld geometric median
(learning/geometric_median.py).

Embedding conventions:
- numeric arrays are modelled over the rationals (exact arithmetic);
- a point of a vector manifold is a function `Fin n → ℚ`;
- a Python exception is modelled by `Except String`, the string holding
  the exception class and message of the source;
- ambient randomness (Python's `random.choice`) is made explicit as a
  `pick : ℕ` parameter: the index the ambient random state would draw,
  uniform over `0, ..., len - 1` after reduction mod the sample count.
-/

/-- Points and tangent vectors of an `n`-dimensional vector manifold. -/
abbrev EuclVec (n : ℕ) := Fin n → ℚ

/-- FlatRiemannianMetric.exp: `return base_point + tangent_vec`. -/
def flatExp {n : ℕ} (tangent_vec base_point : EuclVec n) : EuclVec n :=
  base_point + tangent_vec

/-- FlatRiemannianMetric.log: `return point - base_point`. -/
def flatLog {n : ℕ} (point base_point : EuclVec n) : EuclVec n :=
  point - base_point

/-- FlatRiemannianMetric.geodesic.  The source raises `ValueError` when both
of `end_point` / `initial_tangent_vec` are missing, and when both are given;
when only `end_point` is given it sets
`initial_tangent_vec = self.log(end_point, initial_point)`.  The returned
path callable is modelled on a single (non-batched) initial condition at a
single scalar time: the einsum `n,...i->...ni` against one time `t` is the
scaling `t • initial_tangent_vec`. -/
def flatGeodesic {n : ℕ} (initial_point : EuclVec n)
    (end_point initial_tangent_vec : Option (EuclVec n)) :
    Except String (ℚ → EuclVec n) :=
  match end_point, initial_tangent_vec with
  | none, none =>
      Except.error
        "ValueError: Specify an end point or an initial tangent vector to define the geodesic."
  | some _, some _ =>
      Except.error
        "ValueError: Cannot specify both an end point and an initial tangent vector."
  | some ep, none =>
      let itv := flatLog ep initial_point
      Except.ok (fun t => initial_point + t • itv)
  | none, some itv =>
      Except.ok (fun t => initial_point + t • itv)

/-- C7: `flatGeodesic` errors when neither or both of `end_point` and
`initial_tangent_vec` are supplied; with exactly one of them it returns a
path callable, and when `end_point` is given the initial tangent vector is
`log(end_point, initial_point)`. -/
theorem flat_geodesic_configuration {n : ℕ}
    (ip ep itv : EuclVec n) :
    (flatGeodesic ip none none =
      Except.error
        "ValueError: Specify an end point or an initial tangent vector to define the geodesic.")
    ∧ (flatGeodesic ip (some ep) (some itv) =
      Except.error
        "ValueError: Cannot specify both an end point and an initial tangent vector.")
    ∧ (flatGeodesic ip (some ep) none =
      Except.ok (fun t => ip + t • flatLog ep ip))
    ∧ (flatGeodesic ip none (some itv) =
      Except.ok (fun t => ip + t • itv)) :=
  ⟨rfl, rfl, rfl, rfl⟩

/-- C8: for the flat metric, `log(exp(v, p), p) = v` and
`exp(log(q, p), p) = q`, exactly. -/
theorem flat_exp_log_inverse {n : ℕ} (p v q : EuclVec n) :
    flatLog (flatExp v p) p = v ∧ flatExp (flatLog q p) p = q := by
  constructor
  · show p + v - p = v
    abel
  · show p + (q - p) = q
    abel

/-- A square rational matrix, as in geometry/group_action.py points
`shape=[n, n]`. -/
abbrev MatQ (n : ℕ) := Fin n → Fin n → ℚ

/-- Matrix product (gs.matmul / Matrices.mul). -/
def matMul {n : ℕ} (A B : MatQ n) : MatQ n :=
  fun i j => ∑ k, A i k * B k j

/-- Matrices.transpose. -/
def matTranspose {n : ℕ} (A : MatQ n) : MatQ n :=
  fun i j => A j i

/-- permutation_matrix_from_vector: the sparse one-hot matrix built from the
index pairs `(i, group_elem[i])` with value 1 (non-batched case). -/
def permutation_matrix_from_vector {n : ℕ} (group_elem : Fin n → Fin n) : MatQ n :=
  fun i j => if group_elem i = j then 1 else 0

/-- CongruenceAction.__call__: `Matrices.mul(group_elem, point,
Matrices.transpose(group_elem))`. -/
def congruenceAction {n : ℕ} (group_elem point : MatQ n) : MatQ n :=
  matMul (matMul group_elem point) (matTranspose group_elem)

/-- PermutationAction.__call__: congruence action by the permutation matrix
of the permutation vector. -/
def permutationAction {n : ℕ} (group_elem : Fin n → Fin n) (point : MatQ n) :
    MatQ n :=
  congruenceAction (permutation_matrix_from_vector group_elem) point

/-- RowPermutationAction.__call__:
`gs.matmul(Matrices.transpose(perm_mat), point)`. -/
def rowPermutationAction {n : ℕ} (group_elem : Fin n → Fin n) (point : MatQ n) :
    MatQ n :=
  matMul (matTranspose (permutation_matrix_from_vector group_elem)) point

/-- A permutation vector of length n is modelled as `Fin n → Fin n`;
_PermutationActionMixins._inverse_element_single scatters `val` into slot
`group_elem[val]` of a zero-initialised vector, for `val = 0, ..., n-1`. -/
def inverse_element_single {n : ℕ} (group_elem : Fin n → Fin n) : Fin n → Fin n :=
  (List.finRange n).foldl
    (fun acc val => Function.update acc (group_elem val) val)
    (fun i => ⟨0, Fin.pos (group_elem i)⟩)

theorem foldl_update_of_forall_ne {n : ℕ} (g : Fin n → Fin n)
    (l : List (Fin n)) (init : Fin n → Fin n) (j : Fin n)
    (hj : ∀ v ∈ l, g v ≠ j) :
    (l.foldl (fun acc val => Function.update acc (g val) val) init) j = init j := by
  induction l generalizing init with
  | nil => rfl
  | cons v t ih =>
      have hv : g v ≠ j := hj v (List.mem_cons_self v t)
      have ht : ∀ u ∈ t, g u ≠ j := fun u hu => hj u (List.mem_cons_of_mem v hu)
      simp only [List.foldl_cons]
      rw [ih _ ht, Function.update_noteq (Ne.symm hv)]

theorem foldl_update_of_mem {n : ℕ} {g : Fin n → Fin n}
    (hg : Function.Injective g) (l : List (Fin n)) (init : Fin n → Fin n)
    (i : Fin n) (hi : i ∈ l) :
    (l.foldl (fun acc val => Function.update acc (g val) val) init) (g i) = i := by
  induction l generalizing init with
  | nil => cases hi
  | cons v t ih =>
      simp only [List.foldl_cons]
      by_cases hit : i ∈ t
      · exact ih _ hit
      · have hiv : i = v := by
          rcases List.mem_cons.mp hi with h | h
          · exact h
          · exact absurd h hit
        subst hiv
        have ht : ∀ u ∈ t, g u ≠ g i := by
          intro u hu hgu
          exact hit (hg hgu ▸ hu)
        rw [foldl_update_of_forall_ne g t _ (g i) ht, Function.update_same]

theorem inverse_element_single_apply {n : ℕ} {g : Fin n → Fin n}
    (hg : Function.Injective g) (i : Fin n) :
    inverse_element_single g (g i) = i :=
  foldl_update_of_mem hg (List.finRange n) _ i (List.mem_finRange i)

theorem apply_inverse_element_single {n : ℕ} {g : Fin n → Fin n}
    (hg : Function.Bijective g) (j : Fin n) :
    g (inverse_element_single g j) = j := by
  obtain ⟨i, rfl⟩ := hg.2 j
  rw [inverse_element_single_apply hg.1]

theorem inverse_element_single_bijective {n : ℕ} {g : Fin n → Fin n}
    (hg : Function.Bijective g) :
    Function.Bijective (inverse_element_single g) := by
  constructor
  · intro a b hab
    have := congrArg g hab
    rwa [apply_inverse_element_single hg, apply_inverse_element_single hg] at this
  · intro j
    exact ⟨g j, inverse_element_single_apply hg.1 j⟩

theorem inverse_element_single_involutive {n : ℕ} {g : Fin n → Fin n}
    (hg : Function.Bijective g) :
    inverse_element_single (inverse_element_single g) = g := by
  funext i
  have h1 : inverse_element_single g (g i) = i := inverse_element_single_apply hg.1 i
  have h2 := inverse_element_single_apply (inverse_element_single_bijective hg).1 (g i)
  rwa [h1] at h2

theorem matMul_perm_left {n : ℕ} (g : Fin n → Fin n) (p : MatQ n) (i j : Fin n) :
    matMul (permutation_matrix_from_vector g) p i j = p (g i) j := by
  simp only [matMul, permutation_matrix_from_vector, ite_mul, one_mul, zero_mul]
  rw [Finset.sum_ite_eq]
  simp

theorem matMul_permT_right {n : ℕ} (g : Fin n → Fin n) (p : MatQ n) (i j : Fin n) :
    matMul p (matTranspose (permutation_matrix_from_vector g)) i j = p i (g j) := by
  simp only [matMul, matTranspose, permutation_matrix_from_vector, mul_ite,
    mul_one, mul_zero]
  rw [Finset.sum_ite_eq]
  simp

theorem matMul_permT_left {n : ℕ} {g : Fin n → Fin n}
    (hg : Function.Bijective g) (p : MatQ n) (i j : Fin n) :
    matMul (matTranspose (permutation_matrix_from_vector g)) p i j =
      p (inverse_element_single g i) j := by
  simp only [matMul, matTranspose, permutation_matrix_from_vector, ite_mul,
    one_mul, zero_mul]
  rw [Finset.sum_eq_single (inverse_element_single g i)]
  · rw [if_pos (apply_inverse_element_single hg i)]
  · intro b _ hb
    rw [if_neg]
    intro hgb
    exact hb (by
      have := apply_inverse_element_single hg i
      exact hg.1 (hgb.trans this.symm))
  · intro h
    exact absurd (Finset.mem_univ _) h

theorem permutationAction_apply {n : ℕ} (g : Fin n → Fin n) (p : MatQ n)
    (i j : Fin n) :
    permutationAction g p i j = p (g i) (g j) := by
  show matMul (matMul (permutation_matrix_from_vector g) p)
      (matTranspose (permutation_matrix_from_vector g)) i j = _
  rw [matMul_permT_right, matMul_perm_left]

theorem rowPermutationAction_apply {n : ℕ} {g : Fin n → Fin n}
    (hg : Function.Bijective g) (p : MatQ n) (i j : Fin n) :
    rowPermutationAction g p i j = p (inverse_element_single g i) j :=
  matMul_permT_left hg p i j

/-- C9: for a permutation vector `g` (a bijection of indices), the
scatter-based inversion is an involution, and both the congruence
permutation action and the row-permutation action are undone by acting
with the inverse element. -/
theorem permutation_round_trip {n : ℕ} (g : Fin n → Fin n)
    (hg : Function.Bijective g) (p : MatQ n) :
    inverse_element_single (inverse_element_single g) = g
    ∧ permutationAction (inverse_element_single g) (permutationAction g p) = p
    ∧ rowPermutationAction (inverse_element_single g)
        (rowPermutationAction g p) = p := by
  refine ⟨inverse_element_single_involutive hg, ?_, ?_⟩
  · funext i j
    rw [permutationAction_apply, permutationAction_apply,
      apply_inverse_element_single hg, apply_inverse_element_single hg]
  · funext i j
    rw [rowPermutationAction_apply (inverse_element_single_bijective hg),
      inverse_element_single_involutive hg,
      rowPermutationAction_apply hg,
      inverse_element_single_apply hg.1]

/-- Concrete permutation used to witness C9. -/
def permEx : Fin 3 → Fin 3 :=
  fun i => ⟨(i.1 + 1) % 3, Nat.mod_lt _ (by omega)⟩

/-- Concrete 3 by 3 matrix used to witness C9. -/
def matEx : MatQ 3 :=
  fun i j => (i.1 : ℚ) * 3 + (j.1 : ℚ)

/-- Witness for C9 at the concrete cycle `permEx` and matrix `matEx`. -/
theorem permutation_round_trip_witness :
    Function.Bijective permEx
    ∧ (inverse_element_single (inverse_element_single permEx) = permEx
      ∧ permutationAction (inverse_element_single permEx)
          (permutationAction permEx matEx) = matEx
      ∧ rowPermutationAction (inverse_element_single permEx)
          (rowPermutationAction permEx matEx) = matEx) :=
  ⟨by decide, permutation_round_trip permEx (by decide) matEx⟩

/-- The Riemannian metric operations consumed by the estimators
(self.metric in the source): distance, log map and exp map. -/
structure MetricOps (V : Type) where
  dist : V → V → ℚ
  log : V → V → V
  exp : V → V → V

/-- WeiszfeldAlgorithm.single_iteration over a list of samples.  The source
computes the distances to the current median, returns the median unchanged
when their sum is exactly zero, and otherwise takes one exp step along the
weighted average of the log maps.  Rational division is total (q / 0 = 0 in
this model), which is only reachable outside the guard. -/
def single_iteration {V : Type} [AddCommMonoid V] [Module ℚ V]
    (m : MetricOps V) (current_median : V) (X : List V)
    (weights : List ℚ) (lr : ℚ) : V :=
  let dists := X.map (m.dist current_median)
  if dists.sum = 0 then current_median
  else
    let logs := X.map (fun x => m.log x current_median)
    let mul := List.zipWith (fun w d => w / d) weights dists
    let v_k := (mul.sum)⁻¹ • (List.zipWith (fun c l => c • l) mul logs).sum
    m.exp (lr • v_k) current_median

/-- Initial median of WeiszfeldAlgorithm.fit:
`X[0] if self.init is None else self.init`; `none` models the IndexError on
an empty dataset with no init. -/
def weiszfeldInitialMedian {V : Type} (init : Option V) (X : List V) :
    Option V :=
  match init with
  | some p => some p
  | none => X.head?

/-- WeiszfeldAlgorithm.fit.  `pick` is the ambient random draw; the source
never consults randomness, so it is unused.  Default weights are
`gs.ones((n_points,)) / n_points`.  The loop body runs `single_iteration`
and then evaluates `self.verbose`, an attribute that `__init__` never sets,
so any fit with `max_iter >= 1` raises AttributeError; with `max_iter = 0`
the loop body never runs and `estimate_` is the initial median. -/
def weiszfeldFit {V : Type} [AddCommMonoid V] [Module ℚ V]
    (m : MetricOps V) (pick : ℕ) (maxIter : ℕ) (lr : ℚ)
    (init : Option V) (X : List V) (weights : Option (List ℚ)) :
    Except String V :=
  match weiszfeldInitialMedian init X with
  | none => Except.error "IndexError: index 0 is out of bounds for axis 0"
  | some med0 =>
    let ws := weights.getD (List.replicate X.length ((X.length : ℚ))⁻¹)
    match maxIter with
    | 0 => Except.ok med0
    | _ + 1 =>
      let _first := single_iteration m med0 X ws lr
      Except.error
        "AttributeError: WeiszfeldAlgorithm object has no attribute verbose"

/-- Initial reference of the AAC fits:
`random.choice(X) if self.init_point is None else self.init_point`, with the
ambient uniform draw made explicit as `pick` (reduced mod the sample count);
`none` models the IndexError of `random.choice` on an empty sequence. -/
def aacInitPoint {V : Type} (initPoint : Option V) (pick : ℕ) (X : List V) :
    Option V :=
  match initPoint with
  | some p => some p
  | none => X.get? (pick % X.length)

/-- Loop of AACFrechet.fit.  State: previous_estimate, aligned_X, error,
iteration, and the last value bound to `new_estimate` (none while the body
has never run — the variable is then unbound in the source).  The fuel is
`max_iter - iteration`, so the guard `iteration < max_iter` is fuel
positivity and `error > epsilon` is tested explicitly. -/
def aacFrechetGo {V : Type} (align : V → List V → List V) (mean : List V → V)
    (dist : V → V → ℚ) (epsilon : ℚ) :
    ℕ → V → List V → ℚ → ℕ → Option V → Option V × ℕ × ℚ
  | 0, _prev, _aligned, error, iteration, newEst => (newEst, iteration, error)
  | fuel + 1, prev, aligned, error, iteration, newEst =>
    if epsilon < error then
      let aligned' := align prev aligned
      let newEstimate := mean aligned'
      let error' := dist prev newEstimate
      aacFrechetGo align mean dist epsilon fuel newEstimate aligned' error'
        (iteration + 1) (some newEstimate)
    else (newEst, iteration, error)

/-- AACFrechet.fit loop entered with `aligned_X = X`,
`error = self.epsilon + 1` and `iteration = 0`. -/
def aacFrechetRun {V : Type} (align : V → List V → List V) (mean : List V → V)
    (dist : V → V → ℚ) (epsilon : ℚ) (maxIter : ℕ) (prev : V) (X : List V) :
    Option V × ℕ × ℚ :=
  aacFrechetGo align mean dist epsilon maxIter prev X (epsilon + 1) 0 none

/-- Models _warn_max_iterations as called by AACFrechet.fit: warns exactly when the
final iteration count equals max_iter. -/
def aacFrechetWarned {V : Type} (align : V → List V → List V)
    (mean : List V → V) (dist : V → V → ℚ) (epsilon : ℚ) (maxIter : ℕ)
    (prev : V) (X : List V) : Bool :=
  decide ((aacFrechetRun align mean dist epsilon maxIter prev X).2.1 = maxIter)

/-- AACFrechet.fit: initial reference, loop, warning, then
`self.estimate_ = new_estimate` — an UnboundLocalError when the loop body
never ran.  Result: (warning emitted, estimate and n_iter or exception). -/
def aacFrechetFit {V : Type} (align : V → List V → List V) (mean : List V → V)
    (dist : V → V → ℚ) (epsilon : ℚ) (maxIter : ℕ) (initPoint : Option V)
    (pick : ℕ) (X : List V) : Bool × Except String (V × ℕ) :=
  match aacInitPoint initPoint pick X with
  | none =>
      (false, Except.error "IndexError: Cannot choose from an empty sequence")
  | some prev =>
    let r := aacFrechetRun align mean dist epsilon maxIter prev X
    let warned := decide (r.2.1 = maxIter)
    match r.1 with
    | none =>
        (warned, Except.error
          "UnboundLocalError: local variable new_estimate referenced before assignment")
    | some est => (warned, Except.ok (est, r.2.1))

/-- State of the wrapped PCA solver as read by AACGPC.fit: the leading
explained-variance ratio, the reshaped mean and the leading component. -/
structure PCAState (V : Type) where
  explRatio0 : ℚ
  mean : V
  dir : V

/-- Loop of AACGPC.fit.  Each pass aligns to the geodesic through the
current solver mean with the current leading direction, refits the solver,
and signals `error = expl_ - previous_expl` (signed). -/
def aacGPCGo {V : Type} (alignGeo : V → V → List V → List V)
    (pca : List V → PCAState V) (epsilon : ℚ) :
    ℕ → PCAState V → List V → ℚ → ℕ → PCAState V × List V × ℚ × ℕ
  | 0, st, aligned, error, iteration => (st, aligned, error, iteration)
  | fuel + 1, st, aligned, error, iteration =>
    if epsilon < error then
      let aligned' := alignGeo st.mean st.dir aligned
      let st' := pca aligned'
      let error' := st'.explRatio0 - st.explRatio0
      aacGPCGo alignGeo pca epsilon fuel st' aligned' error' (iteration + 1)
    else (st, aligned, error, iteration)

/-- AACGPC.fit after the initial reference is found: align the data to it,
fit the solver once, then loop from `error = epsilon + 1`, `iteration = 0`. -/
def aacGPCRun {V : Type} (alignPP : V → List V → List V)
    (alignGeo : V → V → List V → List V) (pca : List V → PCAState V)
    (epsilon : ℚ) (maxIter : ℕ) (x : V) (X : List V) :
    PCAState V × List V × ℚ × ℕ :=
  let aligned := alignPP x X
  aacGPCGo alignGeo pca epsilon maxIter (pca aligned) aligned (epsilon + 1) 0

/-- AACGPC.fit: returns (warning emitted, final solver state and n_iter),
or none for the IndexError of an empty dataset with no init_point. -/
def aacGPCFit {V : Type} (alignPP : V → List V → List V)
    (alignGeo : V → V → List V → List V) (pca : List V → PCAState V)
    (epsilon : ℚ) (maxIter : ℕ) (initPoint : Option V) (pick : ℕ)
    (X : List V) : Bool × Option (PCAState V × ℕ) :=
  match aacInitPoint initPoint pick X with
  | none => (false, none)
  | some x =>
    let r := aacGPCRun alignPP alignGeo pca epsilon maxIter x X
    (decide (r.2.2.2 = maxIter), some (r.1, r.2.2.2))

/-- Loop of AACRegression.fit.  `fitPredict` models fitting the wrapped
regressor on the fixed inputs X against the aligned targets and predicting
on X; the signal is the summed distance between successive predictions. -/
def aacRegressionGo {V : Type} (alignB : List V → List V → List V)
    (fitPredict : List V → List V) (dist : V → V → ℚ) (epsilon : ℚ) :
    ℕ → List V → List V → ℚ → ℕ → List V × ℕ × ℚ
  | 0, prevPred, _aligned, error, iteration => (prevPred, iteration, error)
  | fuel + 1, prevPred, aligned, error, iteration =>
    if epsilon < error then
      let aligned' := alignB prevPred aligned
      let pred := fitPredict aligned'
      let error' := (List.zipWith dist prevPred pred).sum
      aacRegressionGo alignB fitPredict dist epsilon fuel pred aligned' error'
        (iteration + 1)
    else (prevPred, iteration, error)

/-- AACRegression.fit after the initial target is found. -/
def aacRegressionRun {V : Type} (alignPP : V → List V → List V)
    (alignB : List V → List V → List V) (fitPredict : List V → List V)
    (dist : V → V → ℚ) (epsilon : ℚ) (maxIter : ℕ) (y0 : V) (y : List V) :
    List V × ℕ × ℚ :=
  let aligned := alignPP y0 y
  aacRegressionGo alignB fitPredict dist epsilon maxIter (fitPredict aligned)
    aligned (epsilon + 1) 0

/-- AACRegression.fit: returns (warning emitted, final predictions and
n_iter), or none for the IndexError of an empty target list. -/
def aacRegressionFit {V : Type} (alignPP : V → List V → List V)
    (alignB : List V → List V → List V) (fitPredict : List V → List V)
    (dist : V → V → ℚ) (epsilon : ℚ) (maxIter : ℕ) (initPoint : Option V)
    (pick : ℕ) (y : List V) : Bool × Option (List V × ℕ) :=
  match aacInitPoint initPoint pick y with
  | none => (false, none)
  | some y0 =>
    let r := aacRegressionRun alignPP alignB fitPredict dist epsilon maxIter y0 y
    (decide (r.2.1 = maxIter), some (r.1, r.2.1))

/-- Executable absolute value on the rationals (kernel-reducible, unlike
the lattice-derived `abs`). -/
def ratAbs (q : ℚ) : ℚ := if q < 0 then -q else q

theorem ratAbs_eq_abs (q : ℚ) : ratAbs q = |q| := by
  rw [ratAbs]
  split
  · exact (abs_of_neg (by assumption)).symm
  · exact (abs_of_nonneg (not_lt.mp (by assumption))).symm

/-- Flat metric operations on rational scalars (dimension-one flat metric):
dist is the absolute difference, log the difference, exp the sum. -/
def flatOpsQ : MetricOps ℚ where
  dist a b := ratAbs (b - a)
  log p bp := p - bp
  exp v bp := bp + v

/-- C6: when the sum of distances from the current median to the samples is
exactly zero, single_iteration returns the current median unchanged. -/
theorem weiszfeld_zero_distance_guard {V : Type} [AddCommMonoid V]
    [Module ℚ V] (m : MetricOps V) (current_median : V) (X : List V)
    (weights : List ℚ) (lr : ℚ)
    (h : (X.map (m.dist current_median)).sum = 0) :
    single_iteration m current_median X weights lr = current_median := by
  simp only [single_iteration, h, if_pos]

/-- Witness for C6: the one-dimensional flat metric, median 3 and samples
all equal to 3 have zero total distance, and the iteration is a no-op. -/
theorem weiszfeld_zero_distance_guard_witness :
    (([(3:ℚ), 3]).map (flatOpsQ.dist 3)).sum = 0
    ∧ single_iteration flatOpsQ 3 [(3:ℚ), 3] [1/2, 1/2] 1 = 3 :=
  ⟨by simp [flatOpsQ, ratAbs],
    weiszfeld_zero_distance_guard flatOpsQ 3 [(3:ℚ), 3] [1/2, 1/2] 1
      (by simp [flatOpsQ, ratAbs])⟩

/-- C2 (code bug): on the repeated-point dataset [3, 3] the single iteration
does return the point 3, but `fit` with `max_iter = 1` raises AttributeError
from the undefined `self.verbose` instead of returning normally. -/
theorem weiszfeld_single_point_fit_crash :
    single_iteration flatOpsQ 3 [(3:ℚ), 3] [1/2, 1/2] 1 = 3
    ∧ weiszfeldFit flatOpsQ 0 1 1 none [(3:ℚ), 3] none =
      Except.error
        "AttributeError: WeiszfeldAlgorithm object has no attribute verbose" := by
  exact ⟨by simp [single_iteration, flatOpsQ, ratAbs], rfl⟩

/-- C1 counterexample: a Weiszfeld fit that runs toward its iteration cap
(max_iter = 5, samples 0 and 2) raises AttributeError rather than logging a
warning and returning an estimate. -/
theorem weiszfeld_fit_no_warning_counterexample :
    weiszfeldFit flatOpsQ 0 5 1 none [(0:ℚ), 2] none =
      Except.error
        "AttributeError: WeiszfeldAlgorithm object has no attribute verbose" :=
  rfl

/-- C3 (code bug): AACFrechet with max_iter = 0 on a non-empty dataset
emits the non-convergence warning (the loop exits with iteration = 0 =
max_iter) and then crashes on `self.estimate_ = new_estimate`, the loop
body never having bound `new_estimate`. -/
theorem aac_frechet_max_iter_zero_crash :
    aacFrechetFit (V := ℚ) (fun _ l => l) (fun l => l.headI)
      (fun a b => ratAbs (b - a)) (1/1000000) 0 none 0 [3] =
      (true, Except.error
        "UnboundLocalError: local variable new_estimate referenced before assignment") :=
  rfl

/-- C10: the warning of AACFrechet.fit is emitted exactly when the final
iteration count equals max_iter, whatever the final error; in particular a
run that converges (error below tolerance) exactly on iteration max_iter
still warns. -/
theorem aac_warning_iff_max_iter :
    (∀ (V : Type) (align : V → List V → List V) (mean : List V → V)
        (dist : V → V → ℚ) (epsilon : ℚ) (maxIter : ℕ) (prev : V) (X : List V),
        aacFrechetWarned align mean dist epsilon maxIter prev X = true
          ↔ (aacFrechetRun align mean dist epsilon maxIter prev X).2.1 = maxIter)
    ∧ ((aacFrechetRun (V := ℚ) (fun _ l => l) (fun l => l.headI)
          (fun a b => ratAbs (b - a)) 0 2 1 [0]).2.2 ≤ 0
      ∧ (aacFrechetRun (V := ℚ) (fun _ l => l) (fun l => l.headI)
          (fun a b => ratAbs (b - a)) 0 2 1 [0]).2.1 = 2
      ∧ aacFrechetWarned (V := ℚ) (fun _ l => l) (fun l => l.headI)
          (fun a b => ratAbs (b - a)) 0 2 1 [0] = true) := by
  have hrun : aacFrechetRun (V := ℚ) (fun _ l => l) (fun l => l.headI)
      (fun a b => ratAbs (b - a)) 0 2 1 [0] = (some 0, 2, 0) := by
    norm_num [aacFrechetRun, aacFrechetGo, ratAbs]
  constructor
  · intro V align mean dist epsilon maxIter prev X
    simp [aacFrechetWarned]
  · refine ⟨?_, ?_, ?_⟩
    · rw [hrun]
    · rw [hrun]
    · simp [aacFrechetWarned, hrun]

/-- The PCA-solver oracle used in the C4 counterexample: the first fit (on
the dataset [10, 20]) reports a leading explained-variance ratio of 9/10,
any refit reports 1/10. -/
def gpcPcaEx : List ℚ → PCAState ℚ :=
  fun l => ⟨if l = [10, 20] then 9/10 else 1/10, 0, 0⟩

/-- C4 counterexample: an AACGPC run whose progress signal is -(4/5) (large
magnitude, negative sign) stops after one iteration, with |signal| far above
epsilon = 1/100 and the iteration count below max_iter = 5. -/
theorem aac_gpc_negative_signal_stops_counterexample :
    (aacGPCRun (fun _ l => l) (fun _ _ l => l.map (fun v => v + 1)) gpcPcaEx
        (1/100) 5 10 [10, 20]).2.2.2 = 1
    ∧ (aacGPCRun (fun _ l => l) (fun _ _ l => l.map (fun v => v + 1)) gpcPcaEx
        (1/100) 5 10 [10, 20]).2.2.1 = -(4/5)
    ∧ ¬(|(-(4/5) : ℚ)| ≤ 1/100)
    ∧ (1 : ℕ) ≠ 5 := by
  have hrun : aacGPCRun (fun _ l => l) (fun _ _ l => l.map (fun v => v + 1))
      gpcPcaEx (1/100) 5 10 [10, 20] =
      (⟨1/10, 0, 0⟩, [11, 21], -(4/5), 1) := by
    norm_num [aacGPCRun, aacGPCGo, gpcPcaEx]
  rw [hrun]
  have habs : |(-(4/5) : ℚ)| = 4/5 := by
    rw [abs_neg]
    exact abs_of_pos (by norm_num)
  refine ⟨rfl, rfl, by rw [habs]; norm_num, by norm_num⟩

theorem aacFrechetGo_exit {V : Type} (align : V → List V → List V)
    (mean : List V → V) (dist : V → V → ℚ) (epsilon : ℚ) :
    ∀ (fuel : ℕ) (prev : V) (aligned : List V) (error : ℚ) (iteration : ℕ)
      (newEst : Option V),
      ((aacFrechetGo align mean dist epsilon fuel prev aligned error iteration
          newEst).2.2 ≤ epsilon
        ∨ (aacFrechetGo align mean dist epsilon fuel prev aligned error
            iteration newEst).2.1 = iteration + fuel)
      ∧ (aacFrechetGo align mean dist epsilon fuel prev aligned error iteration
          newEst).2.1 ≤ iteration + fuel := by
  intro fuel
  induction fuel with
  | zero =>
      intro prev aligned error iteration newEst
      exact ⟨Or.inr rfl, Nat.le_refl _⟩
  | succ fuel ih =>
      intro prev aligned error iteration newEst
      by_cases h : epsilon < error
      · simp only [aacFrechetGo, if_pos h]
        obtain ⟨h1, h2⟩ := ih (mean (align prev aligned)) (align prev aligned)
          (dist prev (mean (align prev aligned))) (iteration + 1)
          (some (mean (align prev aligned)))
        constructor
        · rcases h1 with h1 | h1
          · exact Or.inl h1
          · exact Or.inr (by omega)
        · omega
      · simp only [aacFrechetGo, if_neg h]
        exact ⟨Or.inl (le_of_not_lt h), by omega⟩

theorem aacGPCGo_exit {V : Type} (alignGeo : V → V → List V → List V)
    (pca : List V → PCAState V) (epsilon : ℚ) :
    ∀ (fuel : ℕ) (st : PCAState V) (aligned : List V) (error : ℚ)
      (iteration : ℕ),
      ((aacGPCGo alignGeo pca epsilon fuel st aligned error iteration).2.2.1
          ≤ epsilon
        ∨ (aacGPCGo alignGeo pca epsilon fuel st aligned error
            iteration).2.2.2 = iteration + fuel)
      ∧ (aacGPCGo alignGeo pca epsilon fuel st aligned error iteration).2.2.2
          ≤ iteration + fuel := by
  intro fuel
  induction fuel with
  | zero =>
      intro st aligned error iteration
      exact ⟨Or.inr rfl, Nat.le_refl _⟩
  | succ fuel ih =>
      intro st aligned error iteration
      by_cases h : epsilon < error
      · simp only [aacGPCGo, if_pos h]
        obtain ⟨h1, h2⟩ := ih (pca (alignGeo st.mean st.dir aligned))
          (alignGeo st.mean st.dir aligned)
          ((pca (alignGeo st.mean st.dir aligned)).explRatio0 - st.explRatio0)
          (iteration + 1)
        constructor
        · rcases h1 with h1 | h1
          · exact Or.inl h1
          · exact Or.inr (by omega)
        · omega
      · simp only [aacGPCGo, if_neg h]
        exact ⟨Or.inl (le_of_not_lt h), by omega⟩

theorem aacRegressionGo_exit {V : Type} (alignB : List V → List V → List V)
    (fitPredict : List V → List V) (dist : V → V → ℚ) (epsilon : ℚ) :
    ∀ (fuel : ℕ) (prevPred : List V) (aligned : List V) (error : ℚ)
      (iteration : ℕ),
      ((aacRegressionGo alignB fitPredict dist epsilon fuel prevPred aligned
          error iteration).2.2 ≤ epsilon
        ∨ (aacRegressionGo alignB fitPredict dist epsilon fuel prevPred
            aligned error iteration).2.1 = iteration + fuel)
      ∧ (aacRegressionGo alignB fitPredict dist epsilon fuel prevPred aligned
          error iteration).2.1 ≤ iteration + fuel := by
  intro fuel
  induction fuel with
  | zero =>
      intro prevPred aligned error iteration
      exact ⟨Or.inr rfl, Nat.le_refl _⟩
  | succ fuel ih =>
      intro prevPred aligned error iteration
      by_cases h : epsilon < error
      · simp only [aacRegressionGo, if_pos h]
        obtain ⟨h1, h2⟩ := ih (fitPredict (alignB prevPred aligned))
          (alignB prevPred aligned)
          ((List.zipWith dist prevPred
            (fitPredict (alignB prevPred aligned))).sum)
          (iteration + 1)
        constructor
        · rcases h1 with h1 | h1
          · exact Or.inl h1
          · exact Or.inr (by omega)
        · omega
      · simp only [aacRegressionGo, if_neg h]
        exact ⟨Or.inl (le_of_not_lt h), by omega⟩

/-- C4 amended: each AAC fit loop stops exactly when the signed progress
signal drops to at most epsilon, or when the iteration count reaches
max_iter: every run ends with `error <= epsilon` or `n_iter = max_iter`,
and never exceeds max_iter iterations.  (For AACFrechet and AACRegression
the signal is a distance, so the signed test agrees with the |signal| test;
for AACGPC the signed test also stops on negative signals.) -/
theorem aac_stopping_criterion_amended :
    (∀ (V : Type) (align : V → List V → List V) (mean : List V → V)
        (dist : V → V → ℚ) (epsilon : ℚ) (maxIter : ℕ) (prev : V)
        (X : List V),
        ((aacFrechetRun align mean dist epsilon maxIter prev X).2.2 ≤ epsilon
          ∨ (aacFrechetRun align mean dist epsilon maxIter prev X).2.1
              = maxIter)
        ∧ (aacFrechetRun align mean dist epsilon maxIter prev X).2.1
            ≤ maxIter)
    ∧ (∀ (V : Type) (alignPP : V → List V → List V)
        (alignGeo : V → V → List V → List V) (pca : List V → PCAState V)
        (epsilon : ℚ) (maxIter : ℕ) (x : V) (X : List V),
        ((aacGPCRun alignPP alignGeo pca epsilon maxIter x X).2.2.1 ≤ epsilon
          ∨ (aacGPCRun alignPP alignGeo pca epsilon maxIter x X).2.2.2
              = maxIter)
        ∧ (aacGPCRun alignPP alignGeo pca epsilon maxIter x X).2.2.2
            ≤ maxIter)
    ∧ (∀ (V : Type) (alignPP : V → List V → List V)
        (alignB : List V → List V → List V) (fitPredict : List V → List V)
        (dist : V → V → ℚ) (epsilon : ℚ) (maxIter : ℕ) (y0 : V)
        (y : List V),
        ((aacRegressionRun alignPP alignB fitPredict dist epsilon maxIter y0
            y).2.2 ≤ epsilon
          ∨ (aacRegressionRun alignPP alignB fitPredict dist epsilon maxIter
              y0 y).2.1 = maxIter)
        ∧ (aacRegressionRun alignPP alignB fitPredict dist epsilon maxIter y0
            y).2.1 ≤ maxIter) := by
  refine ⟨?_, ?_, ?_⟩
  · intro V align mean dist epsilon maxIter prev X
    have h := aacFrechetGo_exit align mean dist epsilon maxIter prev X
      (epsilon + 1) 0 none
    simpa [aacFrechetRun] using h
  · intro V alignPP alignGeo pca epsilon maxIter x X
    have h := aacGPCGo_exit alignGeo pca epsilon maxIter
      (pca (alignPP x X)) (alignPP x X) (epsilon + 1) 0
    simpa [aacGPCRun] using h
  · intro V alignPP alignB fitPredict dist epsilon maxIter y0 y
    have h := aacRegressionGo_exit alignB fitPredict dist epsilon maxIter
      (fitPredict (alignPP y0 y)) (alignPP y0 y) (epsilon + 1) 0
    simpa [aacRegressionRun] using h

theorem aacFrechetGo_some {V : Type} (align : V → List V → List V)
    (mean : List V → V) (dist : V → V → ℚ) (epsilon : ℚ) :
    ∀ (fuel : ℕ) (prev : V) (aligned : List V) (error : ℚ) (iteration : ℕ)
      (v : V),
      ∃ w, (aacFrechetGo align mean dist epsilon fuel prev aligned error
        iteration (some v)).1 = some w := by
  intro fuel
  induction fuel with
  | zero =>
      intro prev aligned error iteration v
      exact ⟨v, rfl⟩
  | succ fuel ih =>
      intro prev aligned error iteration v
      by_cases h : epsilon < error
      · simp only [aacFrechetGo, if_pos h]
        exact ih _ _ _ _ _
      · simp only [aacFrechetGo, if_neg h]
        exact ⟨v, rfl⟩

/-- C1 amended: the AAC estimators (AACFrechet with at least one allowed
iteration, AACGPC, AACRegression) emit the non-convergence warning exactly
when the final iteration count reaches max_iter and still return their
estimate without raising; WeiszfeldAlgorithm.fit emits no warning at all —
whenever max_iter >= 1 it raises AttributeError from the undefined
`self.verbose` instead of returning. -/
theorem max_iter_warning_amended {V : Type} [AddCommMonoid V] [Module ℚ V] :
    (∀ (align : V → List V → List V) (mean : List V → V) (dist : V → V → ℚ)
        (epsilon : ℚ) (maxIter : ℕ) (p : V) (pick : ℕ) (X : List V),
        1 ≤ maxIter →
        ∃ est n, aacFrechetFit align mean dist epsilon maxIter (some p) pick X
          = (decide (n = maxIter), Except.ok (est, n)))
    ∧ (∀ (alignPP : V → List V → List V) (alignGeo : V → V → List V → List V)
        (pca : List V → PCAState V) (epsilon : ℚ) (maxIter : ℕ) (p : V)
        (pick : ℕ) (X : List V),
        aacGPCFit alignPP alignGeo pca epsilon maxIter (some p) pick X =
          (decide ((aacGPCRun alignPP alignGeo pca epsilon maxIter p X).2.2.2
              = maxIter),
            some ((aacGPCRun alignPP alignGeo pca epsilon maxIter p X).1,
              (aacGPCRun alignPP alignGeo pca epsilon maxIter p X).2.2.2)))
    ∧ (∀ (alignPP : V → List V → List V) (alignB : List V → List V → List V)
        (fitPredict : List V → List V) (dist : V → V → ℚ) (epsilon : ℚ)
        (maxIter : ℕ) (p : V) (pick : ℕ) (y : List V),
        aacRegressionFit alignPP alignB fitPredict dist epsilon maxIter
            (some p) pick y =
          (decide ((aacRegressionRun alignPP alignB fitPredict dist epsilon
              maxIter p y).2.1 = maxIter),
            some ((aacRegressionRun alignPP alignB fitPredict dist epsilon
              maxIter p y).1,
              (aacRegressionRun alignPP alignB fitPredict dist epsilon maxIter
                p y).2.1)))
    ∧ (∀ (m : MetricOps V) (pick maxIter : ℕ) (lr : ℚ) (p : V) (X : List V)
        (w : Option (List ℚ)),
        1 ≤ maxIter →
        weiszfeldFit m pick maxIter lr (some p) X w =
          Except.error
            "AttributeError: WeiszfeldAlgorithm object has no attribute verbose") := by
  refine ⟨?_, ?_, ?_, ?_⟩
  · intro align mean dist epsilon maxIter p pick X hmax
    obtain ⟨k, rfl⟩ : ∃ k, maxIter = k + 1 := ⟨maxIter - 1, by omega⟩
    obtain ⟨w, hw⟩ := aacFrechetGo_some align mean dist epsilon k
      (mean (align p X)) (align p X) (dist p (mean (align p X))) 1
      (mean (align p X))
    have hrun : (aacFrechetRun align mean dist epsilon (k + 1) p X).1
        = some w := by
      simp only [aacFrechetRun, aacFrechetGo, if_pos (lt_add_one epsilon)]
      exact hw
    refine ⟨w, (aacFrechetRun align mean dist epsilon (k + 1) p X).2.1, ?_⟩
    simp only [aacFrechetFit, aacInitPoint]
    rw [hrun]
  · intro alignPP alignGeo pca epsilon maxIter p pick X
    rfl
  · intro alignPP alignB fitPredict dist epsilon maxIter p pick y
    rfl
  · intro m pick maxIter lr p X w hmax
    obtain ⟨k, rfl⟩ : ∃ k, maxIter = k + 1 := ⟨maxIter - 1, by omega⟩
    rfl

/-- Witness for C1 amended, at max_iter = 1, a single sample and an
explicit init point. -/
theorem max_iter_warning_amended_witness :
    (1 ≤ 1
      ∧ ∃ est n, aacFrechetFit (V := ℚ) (fun _ l => l) (fun l => l.headI)
          (fun a b => ratAbs (b - a)) 0 1 (some 5) 0 [5]
          = (decide (n = 1), Except.ok (est, n)))
    ∧ (1 ≤ 1
      ∧ weiszfeldFit flatOpsQ 0 1 1 (some (5:ℚ)) [5] none =
          Except.error
            "AttributeError: WeiszfeldAlgorithm object has no attribute verbose") := by
  constructor
  · exact ⟨by decide,
      (max_iter_warning_amended (V := ℚ)).1 _ _ _ _ _ _ _ _ (by decide)⟩
  · exact ⟨by decide,
      (max_iter_warning_amended (V := ℚ)).2.2.2 _ _ _ _ _ _ _ (by decide)⟩

/-- C5 counterexample: with the ambient random state drawing index 1, the
AAC initial reference is the sample 20, while the Weiszfeld fit (max_iter 0
exposes its initial median as the estimate) still starts from X[0] = 10,
which is not the drawn sample. -/
theorem weiszfeld_init_not_random_counterexample :
    aacInitPoint (V := ℚ) none 1 [10, 20] = some 20
    ∧ weiszfeldFit flatOpsQ 1 0 1 none [(10:ℚ), 20] none = Except.ok 10
    ∧ (10 : ℚ) ≠ 20 := by
  refine ⟨rfl, rfl, by norm_num⟩

/-- C5 amended: when no explicit init is supplied, the AAC estimators draw
the initial reference uniformly at random from the samples (the ambient
draw i selects sample i), while the Weiszfeld median deterministically
starts from the first sample X[0]. -/
theorem default_init_amended {V : Type} (X : List V) :
    (∀ (i : ℕ) (hi : i < X.length),
        aacInitPoint none i X = some (X.get ⟨i, hi⟩))
    ∧ (∀ h0 : 0 < X.length,
        weiszfeldInitialMedian none X = some (X.get ⟨0, h0⟩)) := by
  constructor
  · intro i hi
    simp only [aacInitPoint, Nat.mod_eq_of_lt hi]
    exact List.get?_eq_get hi
  · intro h0
    cases X with
    | nil => exact absurd h0 (lt_irrefl 0)
    | cons a t => rfl

/-- Witness for C5 amended on the dataset [10, 20] with draw index 1. -/
theorem default_init_amended_witness :
    ((1 : ℕ) < 2
      ∧ aacInitPoint (V := ℚ) none 1 [10, 20]
          = some ([(10:ℚ), 20].get ⟨1, by decide⟩))
    ∧ ((0 : ℕ) < 2
      ∧ weiszfeldInitialMedian (V := ℚ) none [10, 20]
          = some ([(10:ℚ), 20].get ⟨0, by decide⟩)) := by
  constructor
  · exact ⟨by decide, (default_init_amended [(10:ℚ), 20]).1 1 (by decide)⟩
  · exact ⟨by decide, (default_init_amended [(10:ℚ), 20]).2 (by decide)⟩
